import Mathlib

/-!
Verification of the race-data-tracker reporting core (`reporting.py`): the lap
boundary detector (`calculate_lap_markers`), the per-lap metrics calculator
(`calculate_per_lap_stats`), and the aggregate calculator
(`calculate_overall_stats`).  Event times are modelled as exact rationals.
Python's `round(x, 2)` is modelled by `round2` (ties, which do not arise in the
properties below, are resolved upward rather than to even).
-/

namespace Race

/-- The event vocabulary of the recorder (`main.py`): `start`, `water_entry`,
`stroke`, `turn_start`, `turn_end`, `breakout`, and the race-`end` event
(named `finish` here because `end` is a Lean keyword). -/
inductive EventType
  | start
  | waterEntry
  | stroke
  | turnStart
  | turnEnd
  | breakout
  | finish
deriving DecidableEq, Repr

/-- One recorded race event: a type tag and a timestamp in seconds. -/
structure Event where
  type : EventType
  time : ℚ
deriving DecidableEq, Repr

/-- The stroke of the race, from `race_details['stroke']`. -/
inductive Stroke
  | freestyle
  | backstroke
  | breaststroke
  | butterfly
  | im
deriving DecidableEq, Repr

/-- Python `e['type'].startswith('turn_')`. -/
def EventType.isTurn : EventType → Bool
  | EventType.turnStart => true
  | EventType.turnEnd => true
  | _ => false

/-- Python `round(x, 2)`: round to two decimal places. -/
def round2 (x : ℚ) : ℚ := (round (x * 100) : ℤ) / 100

/-- Python `list.sort()` on a list of floats: stable ascending sort (all
stable sorts agree, so insertion sort models Python's timsort exactly). -/
def sortQ (l : List ℚ) : List ℚ := l.insertionSort (· ≤ ·)

/-- Python `all_turns.sort(key=lambda x: x[0])`: stable sort of (time, type)
pairs by time. -/
def sortTurns (l : List (ℚ × EventType)) : List (ℚ × EventType) :=
  l.insertionSort (fun a b => a.1 ≤ b.1)

/-- Python `sorted(events, key=lambda x: x['time'])`. -/
def sortEventsByTime (l : List Event) : List Event :=
  l.insertionSort (fun a b => a.time ≤ b.time)

/-- The time-sorted `(time, type)` list of all turn events
(`all_turns` in `calculate_lap_markers`). -/
def allTurns (events : List Event) : List (ℚ × EventType) :=
  sortTurns ((events.filter (fun e => e.type.isTurn)).map (fun e => (e.time, e.type)))

/-- What the IM walk does at a given 1-based lap counter: consume a
`turn_start` and skip its paired `turn_end` (fly/breast laps), consume a
`turn_end` without marking a turn pair (back/free laps), or consume a
`turn_end` and mark a turn pair (the back-to-breast crossover lap). -/
inductive IMStep
  | startSkip
  | endOnly
  | endPair
  | other
deriving DecidableEq, Repr

/-- Lap-group table of the 200 IM walk in `calculate_lap_markers`:
laps 1-2 and 5-6 are fly/breast, 3 and 7 are back/free, 4 is the crossover. -/
def imStep200 (lap : ℕ) : IMStep :=
  if lap = 1 ∨ lap = 2 then IMStep.startSkip
  else if lap = 3 then IMStep.endOnly
  else if lap = 4 then IMStep.endPair
  else if lap = 5 ∨ lap = 6 then IMStep.startSkip
  else if lap = 7 then IMStep.endOnly
  else IMStep.other

/-- Lap-group table of the 400 IM walk: laps 1-4 and 9-12 are fly/breast,
5-7 and 13-15 are back/free, 8 is the crossover. -/
def imStep400 (lap : ℕ) : IMStep :=
  if lap = 1 ∨ lap = 2 ∨ lap = 3 ∨ lap = 4 then IMStep.startSkip
  else if lap = 5 ∨ lap = 6 ∨ lap = 7 then IMStep.endOnly
  else if lap = 8 then IMStep.endPair
  else if lap = 9 ∨ lap = 10 ∨ lap = 11 ∨ lap = 12 then IMStep.startSkip
  else if lap = 13 ∨ lap = 14 ∨ lap = 15 then IMStep.endOnly
  else IMStep.other

/-- Python `if i+1 < len(all_turns) and all_turns[i+1][1] == 'turn_end': i += 2`:
drop the immediately following event when it is a `turn_end`. -/
def skipPairedEnd : List (ℚ × EventType) → List (ℚ × EventType)
  | (_, EventType.turnEnd) :: rest => rest
  | l => l

/-- The IM walk of `calculate_lap_markers`: scan the time-sorted turn events
with a 1-based lap counter, appending boundary times and recording which laps
got a turn pair, stopping at `expected` laps.  Events that do not match the
expected turn sub-type for the current lap group are skipped. -/
def imWalk (step : ℕ → IMStep) (expected : ℕ) :
    List (ℚ × EventType) → ℕ → List ℚ × List ℕ
  | [], _ => ([], [])
  | (t, ty) :: rest, lap =>
    if expected ≤ lap then ([], [])
    else
      match step lap with
      | IMStep.startSkip =>
        if ty = EventType.turnStart then
          let r := imWalk step expected (skipPairedEnd rest) (lap + 1)
          (t :: r.1, lap :: r.2)
        else imWalk step expected rest lap
      | IMStep.endOnly =>
        if ty = EventType.turnEnd then
          let r := imWalk step expected rest (lap + 1)
          (t :: r.1, r.2)
        else imWalk step expected rest lap
      | IMStep.endPair =>
        if ty = EventType.turnEnd then
          let r := imWalk step expected rest (lap + 1)
          (t :: r.1, lap :: r.2)
        else imWalk step expected rest lap
      | IMStep.other => imWalk step expected rest lap
termination_by l _ => l.length
decreasing_by
  all_goals simp_wf
  have h : (skipPairedEnd rest).length ≤ rest.length := by
    cases rest with
    | nil => simp [skipPairedEnd]
    | cons a l =>
      obtain ⟨q, ty2⟩ := a
      cases ty2 <;> simp [skipPairedEnd]
  omega

/-- The per-stroke raw boundary list (with the leading `0.0`) and the
turn-pair lap set of `calculate_lap_markers`, before the end time is appended
and before sorting and debouncing. -/
def rawMarkers (events : List Event) (stroke : Stroke) (distance : ℕ) :
    List ℚ × List ℕ :=
  match stroke with
  | Stroke.breaststroke | Stroke.butterfly =>
    let markers :=
      0 :: (events.filter (fun e => decide (e.type = EventType.turnStart))).map
        (fun e => e.time)
    (markers, (List.range markers.length).drop 1)
  | Stroke.im =>
    let turns := allTurns events
    if distance = 200 then
      let w := imWalk imStep200 8 turns 1
      let markers := 0 :: w.1
      if markers.length < 8 then
        let turnTimes := turns.map Prod.fst
        if 7 ≤ turnTimes.length then (0 :: turnTimes.take 7, [])
        else (0 :: turnTimes, [])
      else (markers, w.2)
    else if distance = 400 then
      let w := imWalk imStep400 16 turns 1
      let markers := 0 :: w.1
      if markers.length < 16 then
        let turnTimes := turns.map Prod.fst
        if 15 ≤ turnTimes.length then (0 :: turnTimes.take 15, [])
        else (0 :: turnTimes, [])
      else (markers, w.2)
    else ([0], [])
  | _ =>
    (0 :: (events.filter (fun e => decide (e.type = EventType.turnEnd))).map
      (fun e => e.time), [])

/-- The times of the `end` events, in event-list order. -/
def endTimes (events : List Event) : List ℚ :=
  (events.filter (fun e => decide (e.type = EventType.finish))).map (fun e => e.time)

/-- Debounce helper: keep a marker only if it is more than 0.1 s after the
last kept marker. -/
def debounceAux (last : ℚ) : List ℚ → List ℚ
  | [] => []
  | x :: rest =>
    if last + 1/10 < x then x :: debounceAux x rest else debounceAux last rest

/-- The debounce pass of `calculate_lap_markers`: always keep the first
marker, then drop any marker within 0.1 s of the last kept one. -/
def debounce : List ℚ → List ℚ
  | [] => []
  | m :: rest => m :: debounceAux m rest

/-- `calculate_lap_markers(events, stroke, distance)`: raw per-stroke
boundaries, then the first `end` time appended when one exists, sorted
ascending and debounced.  Returns the boundary list and the turn-pair lap
set (as a list). -/
def calculate_lap_markers (events : List Event) (stroke : Stroke)
    (distance : ℕ) : List ℚ × List ℕ :=
  let raw := rawMarkers events stroke distance
  let withEnd := raw.1 ++ (endTimes events).take 1
  (debounce (sortQ withEnd), raw.2)

/-- The adjacent `turn_start`/`turn_end` pair scan of `calculate_per_lap_stats`
(`while i < len(all_turn_events) - 1`): over the time-sorted turn events, a
`turn_start` immediately followed by a `turn_end` forms a pair `(start time,
end time)` and both are consumed; otherwise the cursor advances by one. -/
def pairTurns : List Event → List (ℚ × ℚ)
  | e1 :: e2 :: rest =>
    if e1.type = EventType.turnStart ∧ e2.type = EventType.turnEnd then
      (e1.time, e2.time) :: pairTurns rest
    else pairTurns (e2 :: rest)
  | _ => []

/-- The lap-attribution loop for a turn pair: the first lap whose window
contains the `turn_start` time, or (for non-final laps) whose following window
contains the `turn_end` time. -/
def attributeLap (markers : List ℚ) (numLaps : ℕ) (ts te : ℚ) : Option ℕ :=
  (List.range numLaps).find? (fun lap =>
    decide (markers.getD lap 0 ≤ ts ∧ ts ≤ markers.getD (lap + 1) 0) ||
    (decide (lap + 1 < numLaps) &&
      decide (markers.getD (lap + 1) 0 ≤ te ∧ te ≤ markers.getD (lap + 2) 0)))

/-- The `turn_times` dictionary of `calculate_per_lap_stats`, keyed by 1-based
lap number.  A later pair attributed to the same lap overwrites an earlier
one, which the head-first association list models: `List.lookup` finds the
most recently inserted entry. -/
def turnTimesAssoc (events : List Event) (markers : List ℚ) (numLaps : ℕ) :
    List (ℕ × ℚ) :=
  (pairTurns (sortEventsByTime (events.filter (fun e => e.type.isTurn)))).foldl
    (fun acc p =>
      match attributeLap markers numLaps p.1 p.2 with
      | some lap => (lap + 1, round2 (p.2 - p.1)) :: acc
      | none => acc) []

/-- `lap_strokes`: the stroke events whose time lies in the closed lap window,
in event-list order. -/
def lapStrokes (events : List Event) (lapStart lapEnd : ℚ) : List Event :=
  events.filter (fun e =>
    decide (e.type = EventType.stroke ∧ lapStart ≤ e.time ∧ e.time ≤ lapEnd))

/-- `lap_turns`: the turn events whose time lies in the closed lap window. -/
def lapTurns (events : List Event) (lapStart lapEnd : ℚ) : List Event :=
  events.filter (fun e =>
    e.type.isTurn && decide (lapStart ≤ e.time ∧ e.time ≤ lapEnd))

/-- `last_stroke_time`: the maximum time of the in-window strokes, when any
exist. -/
def lastStrokeTime (events : List Event) (lapStart lapEnd : ℚ) : Option ℚ :=
  match (lapStrokes events lapStart lapEnd).map (fun e => e.time) with
  | [] => none
  | t :: ts => some (ts.foldl max t)

/-- `next_turn`: the earliest in-window turn time after the last stroke,
defaulting to the window end. -/
def nextTurnAfter (events : List Event) (lapStart lapEnd last : ℚ) : ℚ :=
  match ((lapTurns events lapStart lapEnd).filter
      (fun e => decide (last < e.time))).map (fun e => e.time) with
  | [] => lapEnd
  | t :: ts => ts.foldl min t

/-- `start_swimming` in the stroke-rate block.  The source computes
`lap_stat.get("Breakout Time") or lap_strokes[0]['time']`, but the
`"Breakout Time"` key is only written later in the loop body, so the lookup
always yields `None` and the time of the first in-window stroke (in
event-list order) is used. -/
def swimStart (events : List Event) (lapStart lapEnd : ℚ) : Option ℚ :=
  ((lapStrokes events lapStart lapEnd).map (fun e => e.time)).head?

/-- `count_strokes_in_lap(events, lap_start, lap_end)`: the number of stroke
events in the closed window. -/
def count_strokes_in_lap (events : List Event) (lapStart lapEnd : ℚ) : ℕ :=
  (events.filter (fun e =>
    decide (e.type = EventType.stroke ∧ lapStart ≤ e.time ∧ e.time ≤ lapEnd))).length

/-- The first `water_entry` event time in event-list order
(`water_entry_events`, truncated to its first element). -/
def firstWaterEntry (events : List Event) : Option ℚ :=
  ((events.filter (fun e => decide (e.type = EventType.waterEntry))).map
    (fun e => e.time)).head?

/-- `underwater_start_time`: for lap 0 the first `water_entry` time when one
exists, otherwise the lap's starting boundary. -/
def underwaterStart (events : List Event) (markers : List ℚ) (lap : ℕ) : ℚ :=
  match firstWaterEntry events with
  | some t => if lap = 0 then t else markers.getD lap 0
  | none => markers.getD lap 0

/-- `relative_breakout_time`: the measured breakout time minus the underwater
start time. -/
def relativeBreakoutTime (events : List Event) (markers : List ℚ)
    (breakoutTimes : List ℚ) (lap : ℕ) : ℚ :=
  breakoutTimes.getD lap 0 - underwaterStart events markers lap

/-- `overwater_time`: time from the measured breakout to the last in-window
stroke when that stroke is truthy and later than the breakout (Python's
`if last_stroke_time and last_stroke_time > breakout_times[lap]`, where a
stroke at time 0.0 is falsy), otherwise to the window end. -/
def overwaterTime (events : List Event) (markers : List ℚ)
    (breakoutTimes : List ℚ) (lap : ℕ) : ℚ :=
  let lapStart := markers.getD lap 0
  let lapEnd := markers.getD (lap + 1) 0
  let bt := breakoutTimes.getD lap 0
  match lastStrokeTime events lapStart lapEnd with
  | some t => if t ≠ 0 ∧ bt < t then t - bt else lapEnd - bt
  | none => lapEnd - bt

/-- The input of `calculate_per_lap_stats`: the event list and the optional
manual measurement arrays. -/
structure RaceData where
  events : List Event
  breakout_times : Option (List ℚ)
  breakout_distances : Option (List ℚ)
  fifteen_times : Option (List ℚ)

/-- `has_breakout_data`: all three manual arrays were supplied. -/
def hasBreakoutData (d : RaceData) : Bool :=
  d.breakout_times.isSome && d.breakout_distances.isSome && d.fifteen_times.isSome

/-- One per-lap record (`lap_stat`).  `lap` is the 1-based lap number; a
`none` field models a key that is absent from the record or stored as
`None`. -/
structure LapStat where
  lap : ℕ
  lapTime : ℚ
  strokeToWall : Option ℚ
  turnTime : Option ℚ
  strokeCount : Option ℕ
  strokesPerSecond : Option ℚ
  breakoutTime : Option ℚ
  breakoutDist : Option ℚ
  uwSpeed : Option ℚ
  owSpeed : Option ℚ
  breakToFifteen : Option ℚ
  fifteenToTurn : Option ℚ
deriving DecidableEq, Repr

/-- The loop body of `calculate_per_lap_stats` for 0-based lap index `lap`,
given the final boundary list and the pre-computed turn-time association. -/
def mkLapStat (d : RaceData) (markers : List ℚ) (tta : List (ℕ × ℚ))
    (lap : ℕ) : LapStat :=
  let events := d.events
  let lapStart := markers.getD lap 0
  let lapEnd := markers.getD (lap + 1) 0
  let strokes := lapStrokes events lapStart lapEnd
  let stw : Option ℚ :=
    match lastStrokeTime events lapStart lapEnd with
    | some last => some (round2 (nextTurnAfter events lapStart lapEnd last - last))
    | none => none
  let tt : Option ℚ := tta.lookup (lap + 1)
  let scps : Option ℕ × Option ℚ :=
    match swimStart events lapStart lapEnd with
    | none => (none, none)
    | some st =>
      let dur := lapEnd - st
      (some strokes.length,
       some (round2 (if 0 < dur then (strokes.length : ℚ) / dur else 0)))
  let bts := d.breakout_times.getD []
  let bds := d.breakout_distances.getD []
  let fts := d.fifteen_times.getD []
  if hasBreakoutData d && decide (lap < bts.length) then
    let relBT := relativeBreakoutTime events markers bts lap
    let yards := bds.getD lap 0
    let uw := if 0 < relBT then yards / relBT else 0
    let owDist := 25 - yards - 1/2
    let owT := overwaterTime events markers bts lap
    let ow := if 0 < owT then owDist / owT else 0
    let b2f := fts.getD lap 0 - bts.getD lap 0
    { lap := lap + 1
      lapTime := round2 (lapEnd - lapStart)
      strokeToWall := stw
      turnTime := tt
      strokeCount := scps.1
      strokesPerSecond := scps.2
      breakoutTime := some (round2 relBT)
      breakoutDist := some (round2 yards)
      uwSpeed := some (round2 uw)
      owSpeed := some (round2 ow)
      breakToFifteen := some (round2 b2f)
      fifteenToTurn := some (round2 (lapEnd - fts.getD lap 0)) }
  else
    { lap := lap + 1
      lapTime := round2 (lapEnd - lapStart)
      strokeToWall := stw
      turnTime := tt
      strokeCount := scps.1
      strokesPerSecond := scps.2
      breakoutTime := none
      breakoutDist := none
      uwSpeed := none
      owSpeed := none
      breakToFifteen := none
      fifteenToTurn := none }

/-- `calculate_per_lap_stats(data, race_details)`: boundary detection, the
turn-pair pre-pass, then one record per lap window. -/
def calculate_per_lap_stats (d : RaceData) (stroke : Stroke) (distance : ℕ) :
    List LapStat :=
  let markers := (calculate_lap_markers d.events stroke distance).1
  let numLaps := markers.length - 1
  let tta := turnTimesAssoc d.events markers numLaps
  (List.range numLaps).map (fun lap => mkLapStat d markers tta lap)

/-- Remove every `water_entry` event after the first one, keeping all other
events in place (`seen` records whether a `water_entry` has been kept). -/
def dropLaterWaterEntries : Bool → List Event → List Event
  | _, [] => []
  | seen, e :: rest =>
    if e.type = EventType.waterEntry then
      if seen then dropLaterWaterEntries true rest
      else e :: dropLaterWaterEntries true rest
    else e :: dropLaterWaterEntries seen rest

/-- Following the specification text for `strokes_per_second`:
stroke_count / (window_end − swim_start), where swim_start is the lap's
manual breakout_time when the manual measurements cover the lap and otherwise
the time of the first in-window stroke; 0 when the denominator is ≤ 0, and
absent when the lap has no in-window stroke. -/
def spec_strokes_per_second (d : RaceData) (markers : List ℚ) (lap : ℕ) :
    Option ℚ :=
  let lapStart := markers.getD lap 0
  let lapEnd := markers.getD (lap + 1) 0
  let strokes := lapStrokes d.events lapStart lapEnd
  match strokes with
  | [] => none
  | s :: _ =>
    let swim :=
      if hasBreakoutData d && decide (lap < (d.breakout_times.getD []).length)
      then (d.breakout_times.getD []).getD lap 0
      else s.time
    let dur := lapEnd - swim
    some (round2 (if 0 < dur then (strokes.length : ℚ) / dur else 0))

/-- The skip-missing summation underlying the pandas column mean: absent
entries contribute nothing to the sum. -/
def colSum : List (Option ℚ) → ℚ
  | [] => 0
  | none :: rest => colSum rest
  | some v :: rest => v + colSum rest

/-- The skip-missing count underlying the pandas column mean: absent entries
contribute nothing to the count. -/
def colCount : List (Option ℚ) → ℕ
  | [] => 0
  | none :: rest => colCount rest
  | some _ :: rest => colCount rest + 1

/-- The pandas column mean used by `calculate_overall_stats`: absent when the
column holds no numeric value (an all-`None` column is not numeric and gets
no average), otherwise the skip-missing mean rounded to 2 decimals. -/
def colMean (c : List (Option ℚ)) : Option ℚ :=
  if colCount c = 0 then none
  else some (round2 (colSum c / colCount c))

/-- Following the specification text for the aggregate calculator: the mean
of a field over exactly the laps where it is present, absent when no lap has
it. -/
def meanOfPresent (c : List (Option ℚ)) : Option ℚ :=
  let vs := c.filterMap id
  if vs = [] then none else some (round2 (vs.sum / vs.length))

/-- The output of `calculate_overall_stats`: one `"Average <field>"` entry
per numeric per-lap field, with the lap-number field excluded.  A `none`
models a key that is absent from the returned dictionary. -/
structure OverallStats where
  avgLapTime : Option ℚ
  avgStrokeToWall : Option ℚ
  avgTurnTime : Option ℚ
  avgStrokeCount : Option ℚ
  avgStrokesPerSecond : Option ℚ
  avgBreakoutTime : Option ℚ
  avgBreakoutDist : Option ℚ
  avgUwSpeed : Option ℚ
  avgOwSpeed : Option ℚ
  avgBreakToFifteen : Option ℚ
  avgFifteenToTurn : Option ℚ
deriving DecidableEq, Repr

/-- `calculate_overall_stats(lap_stats)`: the mean of every numeric column
except `"Lap"`, rounded to 2 decimals. -/
def calculate_overall_stats (stats : List LapStat) : OverallStats :=
  { avgLapTime := colMean (stats.map (fun s => some s.lapTime))
    avgStrokeToWall := colMean (stats.map (fun s => s.strokeToWall))
    avgTurnTime := colMean (stats.map (fun s => s.turnTime))
    avgStrokeCount := colMean (stats.map (fun s => s.strokeCount.map (fun n => (n : ℚ))))
    avgStrokesPerSecond := colMean (stats.map (fun s => s.strokesPerSecond))
    avgBreakoutTime := colMean (stats.map (fun s => s.breakoutTime))
    avgBreakoutDist := colMean (stats.map (fun s => s.breakoutDist))
    avgUwSpeed := colMean (stats.map (fun s => s.uwSpeed))
    avgOwSpeed := colMean (stats.map (fun s => s.owSpeed))
    avgBreakToFifteen := colMean (stats.map (fun s => s.breakToFifteen))
    avgFifteenToTurn := colMean (stats.map (fun s => s.fifteenToTurn)) }

/-! Concrete event streams used in the theorems below. -/

/-- Scenario A's stream with the `end` event missing: start, water entry and
two freestyle turns, but no final time. -/
def missingEndEvents : List Event :=
  [⟨EventType.start, 0⟩, ⟨EventType.waterEntry, 0.3⟩,
   ⟨EventType.turnEnd, 25.1⟩, ⟨EventType.turnEnd, 50.3⟩]

/-- A two-lap freestyle stream with strokes in both laps. -/
def spsEvents : List Event :=
  [⟨EventType.start, 0⟩, ⟨EventType.stroke, 5⟩, ⟨EventType.stroke, 10⟩,
   ⟨EventType.turnEnd, 25⟩, ⟨EventType.stroke, 30⟩, ⟨EventType.finish, 50⟩]

/-- The two-lap freestyle stream together with manual measurements covering
both laps (breakout times 2 and 27). -/
def spsData : RaceData := ⟨spsEvents, some [2, 27], some [5, 5], some [6, 31]⟩

/-- A 200 IM stream with only 5 turn events (7 are expected) plus an `end`. -/
def im200FiveTurnEvents : List Event :=
  [⟨EventType.start, 0⟩, ⟨EventType.turnEnd, 30⟩, ⟨EventType.turnEnd, 60⟩,
   ⟨EventType.turnEnd, 90⟩, ⟨EventType.turnEnd, 120⟩, ⟨EventType.turnEnd, 150⟩,
   ⟨EventType.finish, 180⟩]

/-- A freestyle stream whose two turn events are 0.05 s apart. -/
def closeTurnEvents : List Event :=
  [⟨EventType.start, 0⟩, ⟨EventType.turnEnd, 25⟩, ⟨EventType.turnEnd, 25.05⟩,
   ⟨EventType.finish, 50⟩]

/-- A freestyle stream whose two turn events are 0.2 s apart. -/
def separatedTurnEvents : List Event :=
  [⟨EventType.start, 0⟩, ⟨EventType.turnEnd, 25⟩, ⟨EventType.turnEnd, 25.2⟩,
   ⟨EventType.finish, 50⟩]

/-- Scenario B's stream: a butterfly 50 with a `turn_start`/`turn_end` pair at
28.0 and 29.5 and the finish at 55.0. -/
def scenarioBEvents : List Event :=
  [⟨EventType.start, 0⟩, ⟨EventType.turnStart, 28⟩, ⟨EventType.turnEnd, 29.5⟩,
   ⟨EventType.finish, 55⟩]

/-- A freestyle stream with only a single turn event and one stroke. -/
def oneStrokeEvents : List Event :=
  [⟨EventType.start, 0⟩, ⟨EventType.stroke, 10⟩, ⟨EventType.turnEnd, 25⟩,
   ⟨EventType.finish, 50⟩]

/-- Manual-measurement input whose breakout time (1) precedes the water entry
(5) and whose single lap window is degenerate, exercising every non-positive
denominator guard at once. -/
def degenerateData : RaceData :=
  ⟨[⟨EventType.waterEntry, 5⟩, ⟨EventType.stroke, 0⟩], some [1], some [2], some [3]⟩

/-- A freestyle stream containing two `water_entry` events. -/
def doubleEntryEvents : List Event :=
  [⟨EventType.start, 0⟩, ⟨EventType.waterEntry, 0.3⟩, ⟨EventType.waterEntry, 2⟩,
   ⟨EventType.stroke, 5⟩, ⟨EventType.turnEnd, 25⟩, ⟨EventType.finish, 50⟩]

/-- Four per-lap records for the aggregate witness: `turnTime` is present in
laps 1 and 3 only. -/
def aggWitnessStats : List LapStat :=
  [⟨1, 25, none, some 1, none, none, none, none, none, none, none, none⟩,
   ⟨2, 25, none, none, none, none, none, none, none, none, none, none⟩,
   ⟨3, 25, none, some 2, none, none, none, none, none, none, none, none⟩,
   ⟨4, 25, none, none, none, none, none, none, none, none, none, none⟩]

/-! Theorems.  The rational-arithmetic primitives are made semireducible so
that concrete runs of the embedded functions evaluate inside `decide`. -/

attribute [local semireducible] Rat.add Rat.sub Rat.mul Rat.inv Rat.ofScientific

/-- C1: the claim says a stream without an `end` event must abort the metrics
computation with an error naming the missing event.  The code does not: on a
freestyle stream with two turns and no `end` event, `calculate_lap_markers`
simply omits the final boundary and `calculate_per_lap_stats` silently emits a
two-lap table, treating the race as shorter. -/
theorem C1_no_end_event_silent :
    (calculate_lap_markers missingEndEvents Stroke.freestyle 75).1 = [0, 25.1, 50.3] ∧
    ((calculate_per_lap_stats ⟨missingEndEvents, none, none, none⟩
        Stroke.freestyle 75).map (fun r => r.lapTime)) = [25.1, 25.2] := by
  decide

/-- C2: the claim says swim_start is the lap's manual breakout time whenever
the manual measurements cover the lap.  The code reads the breakout field of
the record before writing it, so it always divides by (window_end − first
in-window stroke time): on a covered lap with strokes at 5 and 10, breakout
time 2 and window end 25, the code yields 2/(25−5) = 0.10 while the claimed
formula yields round(2/(25−2)) = 0.09. -/
theorem C2_strokes_per_second_uses_first_stroke :
    ((calculate_per_lap_stats spsData Stroke.freestyle 50).map
      (fun r => r.strokesPerSecond)) = [some (1/10), some (1/20)] ∧
    spec_strokes_per_second spsData
      (calculate_lap_markers spsData.events Stroke.freestyle 50).1 0 = some (9/100) ∧
    (1/10 : ℚ) ≠ 9/100 := by
  decide

/-- C5 counterexample: a freestyle race whose stream contains a
`turn_start`/`turn_end` pair gets a `turn_time` on lap 1, so it is false that
no freestyle/backstroke lap ever carries a turn_time. -/
theorem C5_free_back_counterexample :
    ((calculate_per_lap_stats ⟨scenarioBEvents, none, none, none⟩
        Stroke.freestyle 50).map (fun r => r.turnTime)) = [some (3/2), none] := by
  decide

/-- C6: Scenario B.  On the butterfly 50 stream start@0, turn_start@28.0,
turn_end@29.5, end@55.0 the detector returns boundaries [0, 28, 55], the
calculator emits 2 laps, and lap 1 carries turn_time 1.5 (the pair attributed
to the lap containing the turn_start). -/
theorem C6_scenario_b :
    (calculate_lap_markers scenarioBEvents Stroke.butterfly 50).1 = [0, 28, 55] ∧
    ((calculate_per_lap_stats ⟨scenarioBEvents, none, none, none⟩
        Stroke.butterfly 50).map (fun r => (r.lap, r.turnTime)))
      = [(1, some (3/2)), (2, none)] := by
  decide

/-- C7 counterexample: on a freestyle 50 whose second lap window [25, 50]
contains no stroke event, the second record omits the stroke count (`none`)
rather than recording 0, so the claim's "including when that number is zero"
fails. -/
theorem C7_zero_strokes_counterexample :
    ((calculate_per_lap_stats ⟨oneStrokeEvents, none, none, none⟩
        Stroke.freestyle 50).map (fun r => r.strokeCount)) = [some 1, none] ∧
    count_strokes_in_lap oneStrokeEvents 25 50 = 0 := by
  decide

/-- C9: the division guards are total.  For every input, every boundary list
and every turn-time table: underwater speed is 0 whenever the relative
breakout time is ≤ 0, overwater speed is 0 whenever the overwater time is
≤ 0, and strokes per second is 0 whenever its denominator (window end minus
the swim start) is ≤ 0. -/
theorem C9_division_guards (d : RaceData) (markers : List ℚ)
    (tta : List (ℕ × ℚ)) (lap : ℕ) :
    (hasBreakoutData d = true → lap < (d.breakout_times.getD []).length →
      relativeBreakoutTime d.events markers (d.breakout_times.getD []) lap ≤ 0 →
      (mkLapStat d markers tta lap).uwSpeed = some 0) ∧
    (hasBreakoutData d = true → lap < (d.breakout_times.getD []).length →
      overwaterTime d.events markers (d.breakout_times.getD []) lap ≤ 0 →
      (mkLapStat d markers tta lap).owSpeed = some 0) ∧
    (∀ st, swimStart d.events (markers.getD lap 0) (markers.getD (lap + 1) 0) = some st →
      markers.getD (lap + 1) 0 - st ≤ 0 →
      (mkLapStat d markers tta lap).strokesPerSecond = some 0) := by
  refine ⟨?_, ?_, ?_⟩
  · intro h1 h2 h3
    simp only [mkLapStat]
    split
    · simp only [if_neg (not_lt.mpr h3)]
      norm_num [round2]
    · rename_i hc
      simp [h1, h2] at hc
  · intro h1 h2 h3
    simp only [mkLapStat]
    split
    · simp only [if_neg (not_lt.mpr h3)]
      norm_num [round2]
    · rename_i hc
      simp [h1, h2] at hc
  · intro st hst hle
    simp only [mkLapStat, hst]
    split <;> simp only [if_neg (not_lt.mpr hle)] <;> norm_num [round2]

/-- C9 witness: on `degenerateData` with the degenerate boundary list [0, 0]
all three guards fire and all three metrics are 0. -/
theorem C9_division_guards_witness :
    (mkLapStat degenerateData [0, 0] [] 0).uwSpeed = some 0 ∧
    (mkLapStat degenerateData [0, 0] [] 0).owSpeed = some 0 ∧
    (mkLapStat degenerateData [0, 0] [] 0).strokesPerSecond = some 0 :=
  ⟨(C9_division_guards degenerateData [0, 0] [] 0).1 (by decide) (by decide) (by decide),
   (C9_division_guards degenerateData [0, 0] [] 0).2.1 (by decide) (by decide) (by decide),
   (C9_division_guards degenerateData [0, 0] [] 0).2.2 0 (by decide) (by decide)⟩

theorem pairTurns_eq_nil {l : List Event}
    (h : ∀ e ∈ l, e.type ≠ EventType.turnStart) : pairTurns l = [] := by
  induction l with
  | nil => rfl
  | cons e1 rest ih =>
    cases rest with
    | nil => rfl
    | cons e2 rest2 =>
      rw [pairTurns, if_neg]
      · exact ih (fun e he => h e (List.mem_cons_of_mem e1 he))
      · intro hc
        exact h e1 (List.mem_cons_self e1 _) hc.1

theorem turnTimesAssoc_eq_nil {events : List Event} (markers : List ℚ)
    (numLaps : ℕ) (h : ∀ e ∈ events, e.type ≠ EventType.turnStart) :
    turnTimesAssoc events markers numLaps = [] := by
  have h2 : ∀ e ∈ sortEventsByTime (events.filter (fun e => e.type.isTurn)),
      e.type ≠ EventType.turnStart := by
    intro e he
    simp only [sortEventsByTime] at he
    have hm : e ∈ events.filter (fun e => e.type.isTurn) :=
      (List.perm_insertionSort _ _).mem_iff.mp he
    exact h e (List.mem_of_mem_filter hm)
  unfold turnTimesAssoc
  rw [pairTurns_eq_nil h2]
  rfl

theorem mkLapStat_turnTime_of_assoc_nil (d : RaceData) (markers : List ℚ)
    (lap : ℕ) : (mkLapStat d markers [] lap).turnTime = none := by
  simp only [mkLapStat]
  split <;> rfl

/-- C5 (amended): for every freestyle or backstroke race whose event stream
contains no `turn_start` event — which is every stream the recorder produces
for those strokes, since their turns are logged as lone `turn_end` events —
no per-lap record carries a turn_time.  (The unamended claim fails because
the calculator attaches turn times regardless of stroke whenever a
`turn_start`/`turn_end` pair occurs in the stream.) -/
theorem C5_free_back_no_turn_time (d : RaceData) (stroke : Stroke)
    (distance : ℕ)
    (_hs : stroke = Stroke.freestyle ∨ stroke = Stroke.backstroke)
    (hns : ∀ e ∈ d.events, e.type ≠ EventType.turnStart) :
    ∀ r ∈ calculate_per_lap_stats d stroke distance, r.turnTime = none := by
  intro r hr
  simp only [calculate_per_lap_stats, List.mem_map] at hr
  obtain ⟨lap, -, rfl⟩ := hr
  rw [turnTimesAssoc_eq_nil _ _ hns]
  exact mkLapStat_turnTime_of_assoc_nil _ _ _

/-- C5 witness: a concrete freestyle stream without `turn_start` events. -/
theorem C5_free_back_no_turn_time_witness :
    (∀ e ∈ oneStrokeEvents, e.type ≠ EventType.turnStart) ∧
    (∀ r ∈ calculate_per_lap_stats ⟨oneStrokeEvents, none, none, none⟩
        Stroke.freestyle 50, r.turnTime = none) :=
  ⟨by decide,
   C5_free_back_no_turn_time ⟨oneStrokeEvents, none, none, none⟩
     Stroke.freestyle 50 (Or.inl rfl) (by decide)⟩

/-- C7 (amended): every per-lap record's stroke count equals the number of
stroke events inside its window when that number is positive; when the window
contains no stroke the field is omitted (`none`) rather than recorded as 0. -/
theorem C7_stroke_count (d : RaceData) (stroke : Stroke) (distance lap : ℕ)
    (r : LapStat)
    (h : (calculate_per_lap_stats d stroke distance)[lap]? = some r) :
    r.strokeCount =
      (if 0 < count_strokes_in_lap d.events
            ((calculate_lap_markers d.events stroke distance).1.getD lap 0)
            ((calculate_lap_markers d.events stroke distance).1.getD (lap + 1) 0)
       then some (count_strokes_in_lap d.events
            ((calculate_lap_markers d.events stroke distance).1.getD lap 0)
            ((calculate_lap_markers d.events stroke distance).1.getD (lap + 1) 0))
       else none) := by
  simp only [calculate_per_lap_stats, List.getElem?_map] at h
  rw [Option.map_eq_some'] at h
  obtain ⟨a, ha, hf⟩ := h
  rw [List.getElem?_eq_some_iff] at ha
  obtain ⟨hlt, ha2⟩ := ha
  simp only [List.getElem_range] at ha2
  subst ha2
  subst hf
  · have hcl : count_strokes_in_lap d.events
        ((calculate_lap_markers d.events stroke distance).1.getD lap 0)
        ((calculate_lap_markers d.events stroke distance).1.getD (lap + 1) 0) =
        (lapStrokes d.events
          ((calculate_lap_markers d.events stroke distance).1.getD lap 0)
          ((calculate_lap_markers d.events stroke distance).1.getD (lap + 1) 0)).length := rfl
    rw [hcl]
    simp only [mkLapStat, swimStart]
    cases hs : lapStrokes d.events
        ((calculate_lap_markers d.events stroke distance).1.getD lap 0)
        ((calculate_lap_markers d.events stroke distance).1.getD (lap + 1) 0) with
    | nil => split <;> simp [hs]
    | cons s ss => split <;> simp [hs]

/-- C7 witness: lap 1 of the one-stroke freestyle has stroke count 1; the
theorem applied at lap 2 (whose window has no stroke) gives `none`. -/
theorem C7_stroke_count_witness :
    (mkLapStat ⟨oneStrokeEvents, none, none, none⟩
        (calculate_lap_markers oneStrokeEvents Stroke.freestyle 50).1
        (turnTimesAssoc oneStrokeEvents
          (calculate_lap_markers oneStrokeEvents Stroke.freestyle 50).1 2) 1).strokeCount =
      (if 0 < count_strokes_in_lap oneStrokeEvents
            ((calculate_lap_markers oneStrokeEvents Stroke.freestyle 50).1.getD 1 0)
            ((calculate_lap_markers oneStrokeEvents Stroke.freestyle 50).1.getD 2 0)
       then some (count_strokes_in_lap oneStrokeEvents
            ((calculate_lap_markers oneStrokeEvents Stroke.freestyle 50).1.getD 1 0)
            ((calculate_lap_markers oneStrokeEvents Stroke.freestyle 50).1.getD 2 0))
       else none) :=
  C7_stroke_count ⟨oneStrokeEvents, none, none, none⟩ Stroke.freestyle 50 1 _ (by decide)

theorem colSum_eq_sum (c : List (Option ℚ)) : colSum c = (c.filterMap id).sum := by
  induction c with
  | nil => rfl
  | cons x rest ih => cases x <;> simp [colSum, List.filterMap_cons, ih]

theorem colCount_eq_length (c : List (Option ℚ)) :
    colCount c = (c.filterMap id).length := by
  induction c with
  | nil => rfl
  | cons x rest ih => cases x <;> simp [colCount, List.filterMap_cons, ih]

theorem colMean_eq_meanOfPresent (c : List (Option ℚ)) :
    colMean c = meanOfPresent c := by
  simp only [colMean, meanOfPresent, colSum_eq_sum, colCount_eq_length,
    List.length_eq_zero]

/-- C8: the aggregate calculator computes, for every numeric per-lap field
other than the lap number, the mean over exactly the laps where the field is
present: laps where it is absent contribute neither to the sum nor to the
count, and a field present in no lap gets no average at all. -/
theorem C8_overall_averages (stats : List LapStat) :
    calculate_overall_stats stats =
      { avgLapTime := meanOfPresent (stats.map (fun s => some s.lapTime))
        avgStrokeToWall := meanOfPresent (stats.map (fun s => s.strokeToWall))
        avgTurnTime := meanOfPresent (stats.map (fun s => s.turnTime))
        avgStrokeCount :=
          meanOfPresent (stats.map (fun s => s.strokeCount.map (fun n => (n : ℚ))))
        avgStrokesPerSecond := meanOfPresent (stats.map (fun s => s.strokesPerSecond))
        avgBreakoutTime := meanOfPresent (stats.map (fun s => s.breakoutTime))
        avgBreakoutDist := meanOfPresent (stats.map (fun s => s.breakoutDist))
        avgUwSpeed := meanOfPresent (stats.map (fun s => s.uwSpeed))
        avgOwSpeed := meanOfPresent (stats.map (fun s => s.owSpeed))
        avgBreakToFifteen := meanOfPresent (stats.map (fun s => s.breakToFifteen))
        avgFifteenToTurn := meanOfPresent (stats.map (fun s => s.fifteenToTurn)) } := by
  simp only [calculate_overall_stats, colMean_eq_meanOfPresent]

theorem filter_dropLaterWaterEntries (p : Event → Bool)
    (hp : ∀ e, e.type = EventType.waterEntry → p e = false) :
    ∀ (seen : Bool) (l : List Event),
      (dropLaterWaterEntries seen l).filter p = l.filter p := by
  intro seen l
  induction l generalizing seen with
  | nil => rfl
  | cons e rest ih =>
    by_cases he : e.type = EventType.waterEntry
    · have hpe := hp e he
      cases seen <;>
        simp [dropLaterWaterEntries, he, List.filter_cons, hpe, ih]
    · simp [dropLaterWaterEntries, he, List.filter_cons, ih]

theorem filterWE_dropLaterWaterEntries :
    ∀ (seen : Bool) (l : List Event),
      (dropLaterWaterEntries seen l).filter
          (fun e => decide (e.type = EventType.waterEntry)) =
        if seen then []
        else (l.filter (fun e => decide (e.type = EventType.waterEntry))).take 1 := by
  intro seen l
  induction l generalizing seen with
  | nil => cases seen <;> simp [dropLaterWaterEntries]
  | cons e rest ih =>
    by_cases he : e.type = EventType.waterEntry
    · cases seen <;> simp [dropLaterWaterEntries, he, List.filter_cons, ih]
    · cases seen <;> simp [dropLaterWaterEntries, he, List.filter_cons, ih]

theorem firstWaterEntry_dropLaterWaterEntries (l : List Event) :
    firstWaterEntry (dropLaterWaterEntries false l) = firstWaterEntry l := by
  unfold firstWaterEntry
  rw [filterWE_dropLaterWaterEntries]
  simp only [if_neg Bool.false_ne_true]
  cases l.filter (fun e => decide (e.type = EventType.waterEntry)) <;> simp

theorem filterIsTurn_dlwe (l : List Event) :
    (dropLaterWaterEntries false l).filter (fun e => e.type.isTurn) =
      l.filter (fun e => e.type.isTurn) :=
  filter_dropLaterWaterEntries _ (fun e he => by simp [he, EventType.isTurn]) false l

theorem filterTS_dlwe (l : List Event) :
    (dropLaterWaterEntries false l).filter
        (fun e => decide (e.type = EventType.turnStart)) =
      l.filter (fun e => decide (e.type = EventType.turnStart)) :=
  filter_dropLaterWaterEntries _ (fun e he => by simp [he]) false l

theorem filterTE_dlwe (l : List Event) :
    (dropLaterWaterEntries false l).filter
        (fun e => decide (e.type = EventType.turnEnd)) =
      l.filter (fun e => decide (e.type = EventType.turnEnd)) :=
  filter_dropLaterWaterEntries _ (fun e he => by simp [he]) false l

theorem allTurns_dlwe (l : List Event) :
    allTurns (dropLaterWaterEntries false l) = allTurns l := by
  unfold allTurns
  rw [filterIsTurn_dlwe]

theorem endTimes_dlwe (l : List Event) :
    endTimes (dropLaterWaterEntries false l) = endTimes l := by
  unfold endTimes
  rw [filter_dropLaterWaterEntries _ (fun e he => by simp [he]) false l]

theorem rawMarkers_dlwe (l : List Event) (stroke : Stroke) (distance : ℕ) :
    rawMarkers (dropLaterWaterEntries false l) stroke distance =
      rawMarkers l stroke distance := by
  cases stroke <;>
    simp only [rawMarkers, allTurns_dlwe, filterTS_dlwe, filterTE_dlwe]

theorem calculate_lap_markers_dlwe (l : List Event) (stroke : Stroke)
    (distance : ℕ) :
    calculate_lap_markers (dropLaterWaterEntries false l) stroke distance =
      calculate_lap_markers l stroke distance := by
  unfold calculate_lap_markers
  rw [rawMarkers_dlwe, endTimes_dlwe]

theorem lapStrokes_dlwe (l : List Event) (a b : ℚ) :
    lapStrokes (dropLaterWaterEntries false l) a b = lapStrokes l a b := by
  unfold lapStrokes
  rw [filter_dropLaterWaterEntries _ (fun e he => by simp [he]) false l]

theorem lapTurns_dlwe (l : List Event) (a b : ℚ) :
    lapTurns (dropLaterWaterEntries false l) a b = lapTurns l a b := by
  unfold lapTurns
  rw [filter_dropLaterWaterEntries _
    (fun e he => by simp [he, EventType.isTurn]) false l]

theorem lastStrokeTime_dlwe (l : List Event) (a b : ℚ) :
    lastStrokeTime (dropLaterWaterEntries false l) a b = lastStrokeTime l a b := by
  unfold lastStrokeTime
  rw [lapStrokes_dlwe]

theorem nextTurnAfter_dlwe (l : List Event) (a b last : ℚ) :
    nextTurnAfter (dropLaterWaterEntries false l) a b last =
      nextTurnAfter l a b last := by
  unfold nextTurnAfter
  rw [lapTurns_dlwe]

theorem swimStart_dlwe (l : List Event) (a b : ℚ) :
    swimStart (dropLaterWaterEntries false l) a b = swimStart l a b := by
  unfold swimStart
  rw [lapStrokes_dlwe]

theorem underwaterStart_dlwe (l : List Event) (markers : List ℚ) (lap : ℕ) :
    underwaterStart (dropLaterWaterEntries false l) markers lap =
      underwaterStart l markers lap := by
  unfold underwaterStart
  rw [firstWaterEntry_dropLaterWaterEntries]

theorem relativeBreakoutTime_dlwe (l : List Event) (markers bts : List ℚ)
    (lap : ℕ) :
    relativeBreakoutTime (dropLaterWaterEntries false l) markers bts lap =
      relativeBreakoutTime l markers bts lap := by
  unfold relativeBreakoutTime
  rw [underwaterStart_dlwe]

theorem overwaterTime_dlwe (l : List Event) (markers bts : List ℚ) (lap : ℕ) :
    overwaterTime (dropLaterWaterEntries false l) markers bts lap =
      overwaterTime l markers bts lap := by
  simp only [overwaterTime, lastStrokeTime_dlwe]

theorem turnTimesAssoc_dlwe (l : List Event) (markers : List ℚ) (n : ℕ) :
    turnTimesAssoc (dropLaterWaterEntries false l) markers n =
      turnTimesAssoc l markers n := by
  unfold turnTimesAssoc
  rw [filterIsTurn_dlwe]

theorem mkLapStat_dlwe (d : RaceData) (markers : List ℚ) (tta : List (ℕ × ℚ))
    (lap : ℕ) :
    mkLapStat ⟨dropLaterWaterEntries false d.events, d.breakout_times,
        d.breakout_distances, d.fifteen_times⟩ markers tta lap =
      mkLapStat d markers tta lap := by
  simp only [mkLapStat, hasBreakoutData, lapStrokes_dlwe, lastStrokeTime_dlwe,
    nextTurnAfter_dlwe, swimStart_dlwe, relativeBreakoutTime_dlwe,
    overwaterTime_dlwe]

/-- C10: only the first `water_entry` event is ever used.  Removing every
later `water_entry` event from the stream leaves the whole per-lap
computation (and hence every aggregate of it) unchanged, and whenever a
`water_entry` exists, lap 1's underwater start time is the time of the first
one in the list. -/
theorem C10_water_entry_first_only (d : RaceData) (stroke : Stroke)
    (distance : ℕ) :
    calculate_per_lap_stats ⟨dropLaterWaterEntries false d.events,
        d.breakout_times, d.breakout_distances, d.fifteen_times⟩
        stroke distance = calculate_per_lap_stats d stroke distance ∧
    ∀ t, firstWaterEntry d.events = some t →
      ∀ markers, underwaterStart d.events markers 0 = t := by
  constructor
  · simp only [calculate_per_lap_stats, calculate_lap_markers_dlwe,
      turnTimesAssoc_dlwe, mkLapStat_dlwe]
  · intro t ht markers
    simp [underwaterStart, ht]

/-- C10 witness: a stream with two `water_entry` events (0.3 and 2). -/
theorem C10_water_entry_first_only_witness :
    calculate_per_lap_stats ⟨dropLaterWaterEntries false doubleEntryEvents,
        none, none, none⟩ Stroke.freestyle 50 =
      calculate_per_lap_stats ⟨doubleEntryEvents, none, none, none⟩
        Stroke.freestyle 50 ∧
    underwaterStart doubleEntryEvents [0, 25, 50] 0 = 0.3 :=
  ⟨(C10_water_entry_first_only ⟨doubleEntryEvents, none, none, none⟩
      Stroke.freestyle 50).1,
   (C10_water_entry_first_only ⟨doubleEntryEvents, none, none, none⟩
      Stroke.freestyle 50).2 0.3 (by decide) [0, 25, 50]⟩

theorem skipPairedEnd_length_le (l : List (ℚ × EventType)) :
    (skipPairedEnd l).length ≤ l.length := by
  cases l with
  | nil => simp [skipPairedEnd]
  | cons a r =>
    obtain ⟨q, ty⟩ := a
    cases ty <;> simp [skipPairedEnd]

theorem mem_map_fst_skipPairedEnd {x : ℚ} {l : List (ℚ × EventType)}
    (h : x ∈ (skipPairedEnd l).map Prod.fst) : x ∈ l.map Prod.fst := by
  cases l with
  | nil => simp [skipPairedEnd] at h
  | cons a r =>
    obtain ⟨q, ty⟩ := a
    cases ty <;> simp [skipPairedEnd] at h ⊢ <;> tauto

theorem imWalk_fst_length_le (step : ℕ → IMStep) (expected : ℕ) :
    ∀ (n : ℕ) (turns : List (ℚ × EventType)) (lap : ℕ), turns.length ≤ n →
      (imWalk step expected turns lap).1.length ≤ turns.length := by
  intro n
  induction n with
  | zero =>
    intro turns lap h
    have : turns = [] := List.eq_nil_of_length_eq_zero (Nat.le_zero.mp h)
    subst this
    simp [imWalk]
  | succ n ih =>
    intro turns lap h
    match turns with
    | [] => simp [imWalk]
    | (t, ty) :: rest =>
      simp only [List.length_cons] at h
      have hrest : rest.length ≤ n := Nat.le_of_succ_le_succ h
      have hskip : (skipPairedEnd rest).length ≤ n :=
        le_trans (skipPairedEnd_length_le rest) hrest
      rw [imWalk]
      split
      · simp
      · split
        · split
          · have := ih (skipPairedEnd rest) (lap + 1) hskip
            have h2 := skipPairedEnd_length_le rest
            simp only [List.length_cons]
            omega
          · have := ih rest lap hrest
            simp only [List.length_cons]
            omega
        · split
          · have := ih rest (lap + 1) hrest
            simp only [List.length_cons]
            omega
          · have := ih rest lap hrest
            simp only [List.length_cons]
            omega
        · split
          · have := ih rest (lap + 1) hrest
            simp only [List.length_cons]
            omega
          · have := ih rest lap hrest
            simp only [List.length_cons]
            omega
        · have := ih rest lap hrest
          simp only [List.length_cons]
          omega

theorem imWalk_fst_mem (step : ℕ → IMStep) (expected : ℕ) :
    ∀ (n : ℕ) (turns : List (ℚ × EventType)) (lap : ℕ), turns.length ≤ n →
      ∀ x, x ∈ (imWalk step expected turns lap).1 → x ∈ turns.map Prod.fst := by
  intro n
  induction n with
  | zero =>
    intro turns lap h x hx
    have : turns = [] := List.eq_nil_of_length_eq_zero (Nat.le_zero.mp h)
    subst this
    simp [imWalk] at hx
  | succ n ih =>
    intro turns lap h x hx
    match turns with
    | [] => simp [imWalk] at hx
    | (t, ty) :: rest =>
      simp only [List.length_cons] at h
      have hrest : rest.length ≤ n := Nat.le_of_succ_le_succ h
      have hskip : (skipPairedEnd rest).length ≤ n :=
        le_trans (skipPairedEnd_length_le rest) hrest
      rw [imWalk] at hx
      split at hx
      · simp at hx
      · split at hx
        · split at hx
          · simp only [List.mem_cons] at hx
            rcases hx with rfl | hx
            · simp
            · have := ih (skipPairedEnd rest) (lap + 1) hskip x hx
              simp only [List.map_cons, List.mem_cons]
              exact Or.inr (mem_map_fst_skipPairedEnd this)
          · have := ih rest lap hrest x hx
            simp only [List.map_cons, List.mem_cons]
            exact Or.inr this
        · split at hx
          · simp only [List.mem_cons] at hx
            rcases hx with rfl | hx
            · simp
            · have := ih rest (lap + 1) hrest x hx
              simp only [List.map_cons, List.mem_cons]
              exact Or.inr this
          · have := ih rest lap hrest x hx
            simp only [List.map_cons, List.mem_cons]
            exact Or.inr this
        · split at hx
          · simp only [List.mem_cons] at hx
            rcases hx with rfl | hx
            · simp
            · have := ih rest (lap + 1) hrest x hx
              simp only [List.map_cons, List.mem_cons]
              exact Or.inr this
          · have := ih rest lap hrest x hx
            simp only [List.map_cons, List.mem_cons]
            exact Or.inr this
        · have := ih rest lap hrest x hx
          simp only [List.map_cons, List.mem_cons]
          exact Or.inr this

theorem allTurns_fst_mem {events : List Event} {x : ℚ}
    (h : x ∈ (allTurns events).map Prod.fst) : ∃ e ∈ events, x = e.time := by
  simp only [allTurns, sortTurns] at h
  rw [List.mem_map] at h
  obtain ⟨p, hp, rfl⟩ := h
  have hp2 : p ∈ (events.filter (fun e => e.type.isTurn)).map
      (fun e => (e.time, e.type)) :=
    (List.perm_insertionSort _ _).mem_iff.mp hp
  rw [List.mem_map] at hp2
  obtain ⟨e, he, rfl⟩ := hp2
  exact ⟨e, List.mem_of_mem_filter he, rfl⟩

theorem rawMarkers_mem {events : List Event} {stroke : Stroke} {distance : ℕ}
    {x : ℚ} (h : x ∈ (rawMarkers events stroke distance).1) :
    x = 0 ∨ ∃ e ∈ events, x = e.time := by
  cases stroke with
  | breaststroke | butterfly =>
    simp only [rawMarkers, List.mem_cons] at h
    rcases h with rfl | h
    · exact Or.inl rfl
    · rw [List.mem_map] at h
      obtain ⟨e, he, rfl⟩ := h
      exact Or.inr ⟨e, List.mem_of_mem_filter he, rfl⟩
  | freestyle | backstroke =>
    simp only [rawMarkers, List.mem_cons] at h
    rcases h with rfl | h
    · exact Or.inl rfl
    · rw [List.mem_map] at h
      obtain ⟨e, he, rfl⟩ := h
      exact Or.inr ⟨e, List.mem_of_mem_filter he, rfl⟩
  | im =>
    simp only [rawMarkers] at h
    split at h
    · split at h
      · split at h
        · simp only [List.mem_cons] at h
          rcases h with rfl | h
          · exact Or.inl rfl
          · exact Or.inr (allTurns_fst_mem (List.mem_of_mem_take h))
        · simp only [List.mem_cons] at h
          rcases h with rfl | h
          · exact Or.inl rfl
          · exact Or.inr (allTurns_fst_mem h)
      · simp only [List.mem_cons] at h
        rcases h with rfl | h
        · exact Or.inl rfl
        · exact Or.inr (allTurns_fst_mem
            (imWalk_fst_mem imStep200 8 (allTurns events).length
              (allTurns events) 1 le_rfl x h))
    · split at h
      · split at h
        · split at h
          · simp only [List.mem_cons] at h
            rcases h with rfl | h
            · exact Or.inl rfl
            · exact Or.inr (allTurns_fst_mem (List.mem_of_mem_take h))
          · simp only [List.mem_cons] at h
            rcases h with rfl | h
            · exact Or.inl rfl
            · exact Or.inr (allTurns_fst_mem h)
        · simp only [List.mem_cons] at h
          rcases h with rfl | h
          · exact Or.inl rfl
          · exact Or.inr (allTurns_fst_mem
              (imWalk_fst_mem imStep400 16 (allTurns events).length
                (allTurns events) 1 le_rfl x h))
      · simp only [List.mem_cons, List.not_mem_nil, or_false] at h
        exact Or.inl h

theorem rawMarkers_zero_cons (events : List Event) (stroke : Stroke)
    (distance : ℕ) : ∃ l, (rawMarkers events stroke distance).1 = 0 :: l := by
  cases stroke <;> simp only [rawMarkers] <;> (repeat' split) <;> exact ⟨_, rfl⟩

theorem chain_debounceAux (l : List ℚ) :
    ∀ last : ℚ, List.Chain (fun a b : ℚ => a + 1/10 < b) last (debounceAux last l) := by
  induction l with
  | nil => intro last; exact List.Chain.nil
  | cons x rest ih =>
    intro last
    rw [debounceAux]
    split
    · exact List.Chain.cons (by assumption) (ih x)
    · exact ih last

theorem debounceAux_eq_of_chain {l : List ℚ} :
    ∀ {last : ℚ}, List.Chain (fun a b : ℚ => a + 1/10 < b) last l →
      debounceAux last l = l := by
  induction l with
  | nil => intro last _; rfl
  | cons x rest ih =>
    intro last h
    rcases h with _ | ⟨hx, hrest⟩
    rw [debounceAux, if_pos hx, ih hrest]

theorem debounce_eq_of_chain {l : List ℚ}
    (h : List.Chain' (fun a b : ℚ => a + 1/10 < b) l) : debounce l = l := by
  cases l with
  | nil => rfl
  | cons m rest =>
    rw [debounce, debounceAux_eq_of_chain h]

theorem mem_withEnd (events : List Event) (stroke : Stroke) (distance : ℕ)
    {x : ℚ}
    (hx : x ∈ (rawMarkers events stroke distance).1 ++ (endTimes events).take 1) :
    x = 0 ∨ ∃ e ∈ events, x = e.time := by
  rcases List.mem_append.mp hx with h1 | h2
  · exact rawMarkers_mem h1
  · have h3 : x ∈ endTimes events := List.mem_of_mem_take h2
    simp only [endTimes] at h3
    rw [List.mem_map] at h3
    obtain ⟨e, he, rfl⟩ := h3
    exact Or.inr ⟨e, List.mem_of_mem_filter he, rfl⟩

/-- C4: for every event stream with non-negative times, every stroke and
every distance, the boundary list starts at 0.0 and consecutive boundaries
are always more than 0.1 s apart (in particular the list is strictly
increasing); of two raw markers 0.05 s apart only the earlier survives, while
two raw markers 0.2 s apart both survive. -/
theorem C4_boundaries_debounced (events : List Event) (stroke : Stroke)
    (distance : ℕ) (h : ∀ e ∈ events, 0 ≤ e.time) :
    (calculate_lap_markers events stroke distance).1.head? = some 0 ∧
    List.Pairwise (fun a b : ℚ => a + 1/10 < b)
      (calculate_lap_markers events stroke distance).1 ∧
    (calculate_lap_markers closeTurnEvents Stroke.freestyle 75).1 = [0, 25, 50] ∧
    (calculate_lap_markers separatedTurnEvents Stroke.freestyle 75).1
      = [0, 25, 25.2, 50] := by
  have hnn : ∀ x ∈ (rawMarkers events stroke distance).1 ++
      (endTimes events).take 1, 0 ≤ x := by
    intro x hx
    rcases mem_withEnd events stroke distance hx with rfl | ⟨e, he, rfl⟩
    · exact le_refl 0
    · exact h e he
  have h0 : (0 : ℚ) ∈ (rawMarkers events stroke distance).1 ++
      (endTimes events).take 1 := by
    obtain ⟨l, hl⟩ := rawMarkers_zero_cons events stroke distance
    exact List.mem_append_left _ (hl ▸ List.mem_cons_self 0 l)
  have hperm := List.perm_insertionSort (fun a b : ℚ => a ≤ b)
    ((rawMarkers events stroke distance).1 ++ (endTimes events).take 1)
  have hsorted : List.Sorted (fun a b : ℚ => a ≤ b)
      (sortQ ((rawMarkers events stroke distance).1 ++ (endTimes events).take 1)) :=
    List.sorted_insertionSort (fun a b : ℚ => a ≤ b)
      ((rawMarkers events stroke distance).1 ++ (endTimes events).take 1)
  have h0s : (0 : ℚ) ∈ sortQ ((rawMarkers events stroke distance).1 ++
      (endTimes events).take 1) := by
    rw [sortQ]
    exact hperm.mem_iff.mpr h0
  have hmk : calculate_lap_markers events stroke distance =
      (debounce (sortQ ((rawMarkers events stroke distance).1 ++
        (endTimes events).take 1)), (rawMarkers events stroke distance).2) := rfl
  refine ⟨?_, ?_, by decide, by decide⟩
  · rw [hmk]
    cases hS : sortQ ((rawMarkers events stroke distance).1 ++
        (endTimes events).take 1) with
    | nil => rw [hS] at h0s; simp at h0s
    | cons a tail =>
      have ha0 : a = 0 := by
        rw [hS] at h0s hsorted
        have hle : ∀ b ∈ tail, a ≤ b :=
          fun b hb => List.rel_of_pairwise_cons hsorted hb
        have h1 : 0 ≤ a := by
          have : a ∈ sortQ ((rawMarkers events stroke distance).1 ++
              (endTimes events).take 1) := by
            rw [hS]; exact List.mem_cons_self a tail
          rw [sortQ] at this
          exact hnn a (hperm.mem_iff.mp this)
        rcases List.mem_cons.mp h0s with h2 | h2
        · exact h2.symm
        · exact le_antisymm (hle 0 h2) h1
      subst ha0
      rfl
  · rw [hmk]
    cases hS : sortQ ((rawMarkers events stroke distance).1 ++
        (endTimes events).take 1) with
    | nil => exact List.Pairwise.nil
    | cons a tail =>
      have hchain : List.Chain' (fun a b : ℚ => a + 1/10 < b)
          (a :: debounceAux a tail) := chain_debounceAux tail a
      have := (@List.chain'_iff_pairwise ℚ (fun a b : ℚ => a + 1/10 < b)
        ⟨fun a b c hab hbc => by linarith⟩
        (a :: debounceAux a tail)).mp hchain
      simpa [debounce] using this

/-- C4 witness: the double-press stream (turns 0.05 s apart) has non-negative
event times; the theorem applied to it yields the invariant and the two
concrete debounce facts. -/
theorem C4_boundaries_debounced_witness :
    (calculate_lap_markers closeTurnEvents Stroke.freestyle 75).1.head? = some 0 ∧
    List.Pairwise (fun a b : ℚ => a + 1/10 < b)
      (calculate_lap_markers closeTurnEvents Stroke.freestyle 75).1 ∧
    (calculate_lap_markers closeTurnEvents Stroke.freestyle 75).1 = [0, 25, 50] ∧
    (calculate_lap_markers separatedTurnEvents Stroke.freestyle 75).1
      = [0, 25, 25.2, 50] :=
  C4_boundaries_debounced closeTurnEvents Stroke.freestyle 75 (by decide)

/-- C3: on a 200-unit IM stream with exactly 5 turn events (fewer than the 7
expected intermediate boundaries) whose times are pairwise more than 0.1 s
apart, plus an `end` event more than 0.1 s after the last turn, the detector
discards the IM walk's partial state and falls back to the 5 chronological
turn times as intermediate boundaries, yielding 6 laps; the per-lap
computation completes normally (the embedded functions are total and emit the
6 records). -/
theorem C3_im200_fallback (events : List Event) (t1 t2 t3 t4 t5 tE : ℚ)
    (hturns : (allTurns events).map Prod.fst = [t1, t2, t3, t4, t5])
    (hg0 : 1/10 < t1) (hg1 : t1 + 1/10 < t2) (hg2 : t2 + 1/10 < t3)
    (hg3 : t3 + 1/10 < t4) (hg4 : t4 + 1/10 < t5) (hg5 : t5 + 1/10 < tE)
    (hend : (endTimes events).head? = some tE) :
    (calculate_lap_markers events Stroke.im 200).1 = [0, t1, t2, t3, t4, t5, tE] ∧
    (calculate_per_lap_stats ⟨events, none, none, none⟩ Stroke.im 200).length = 6 := by
  have hlen5 : (allTurns events).length = 5 := by
    simpa using congrArg List.length hturns
  have hw : (imWalk imStep200 8 (allTurns events) 1).1.length ≤ 5 := by
    have := imWalk_fst_length_le imStep200 8 (allTurns events).length
      (allTurns events) 1 le_rfl
    omega
  have hcond : ((0 : ℚ) :: (imWalk imStep200 8 (allTurns events) 1).1).length < 8 := by
    simp only [List.length_cons]
    omega
  have hcond2 : ¬ 7 ≤ ((allTurns events).map Prod.fst).length := by
    simp [hturns]
  have hraw : (rawMarkers events Stroke.im 200).1 = 0 :: [t1, t2, t3, t4, t5] := by
    simp only [rawMarkers, if_true]
    rw [if_pos hcond, if_neg hcond2, hturns]
  have hendtake : (endTimes events).take 1 = [tE] := by
    cases hE : endTimes events with
    | nil => rw [hE] at hend; simp at hend
    | cons a l =>
      rw [hE] at hend
      simp only [List.head?_cons, Option.some.injEq] at hend
      subst hend
      rfl
  have hW : (rawMarkers events Stroke.im 200).1 ++ (endTimes events).take 1 =
      [0, t1, t2, t3, t4, t5, tE] := by
    rw [hraw, hendtake]
    rfl
  have hchain : List.Chain' (fun a b : ℚ => a + 1/10 < b)
      [0, t1, t2, t3, t4, t5, tE] := by
    simp only [List.chain'_cons, List.chain'_singleton, and_true]
    refine ⟨by linarith, hg1, hg2, hg3, hg4, hg5⟩
  have hpair : List.Pairwise (fun a b : ℚ => a + 1/10 < b)
      [0, t1, t2, t3, t4, t5, tE] :=
    (@List.chain'_iff_pairwise ℚ (fun a b : ℚ => a + 1/10 < b)
      ⟨fun a b c hab hbc => by linarith⟩ _).mp hchain
  have hsorted : List.Sorted (fun a b : ℚ => a ≤ b) [0, t1, t2, t3, t4, t5, tE] :=
    hpair.imp (fun hab => by linarith)
  have hmark : (calculate_lap_markers events Stroke.im 200).1 =
      [0, t1, t2, t3, t4, t5, tE] := by
    show debounce (sortQ ((rawMarkers events Stroke.im 200).1 ++
      (endTimes events).take 1)) = _
    rw [hW]
    rw [show sortQ [0, t1, t2, t3, t4, t5, tE] = [0, t1, t2, t3, t4, t5, tE]
      from List.Sorted.insertionSort_eq hsorted]
    exact debounce_eq_of_chain hchain
  refine ⟨hmark, ?_⟩
  simp only [calculate_per_lap_stats, List.length_map, List.length_range]
  rw [hmark]
  rfl

/-- C3 witness: five `turn_end` events at 30..150 and the finish at 180. -/
theorem C3_im200_fallback_witness :
    (calculate_lap_markers im200FiveTurnEvents Stroke.im 200).1
      = [0, 30, 60, 90, 120, 150, 180] ∧
    (calculate_per_lap_stats ⟨im200FiveTurnEvents, none, none, none⟩
        Stroke.im 200).length = 6 :=
  C3_im200_fallback im200FiveTurnEvents 30 60 90 120 150 180 (by decide)
    (by norm_num) (by norm_num) (by norm_num) (by norm_num) (by norm_num)
    (by norm_num) (by decide)

end Race
